import Mathlib

/-!
Verification development for the `pinger` custom ping utility
(package `helpers` plus the cobra root command).

The Go source is shallowly embedded:
* latencies (Go `float64`) are modelled as rationals `ℚ`; all latencies the
  claims exercise are exactly representable and all arithmetic on them is
  exact, so the rational model agrees with the IEEE computation there;
* counters (Go `int`) are `ℕ` (they only ever increase from 0);
* the network, the OS clock and DNS are inputs: each loop iteration receives
  an `IterEnv` describing what the outside world did, and `net.LookupHost`
  is a function parameter;
* `fmt.Printf` output is modelled as a list of `Line` values, one value per
  `Printf` call, carrying the data the format string interpolates.
-/

/-- `PingStats` from `stats.go`: statistics for ping results.  Go's
`stddev` field stores `math.Sqrt` of the value we keep in `stddevSq`;
the program never reads `stddev` back, it only prints it, so tracking the
radicand keeps the embedding computable without losing any claim-relevant
information.  Division by zero yields `0` in `ℚ` where Go would produce
NaN; the only claim touching that case (C2) is about whether the division
is reached at all, not about its value. -/
structure PingStats where
  transmitted : ℕ
  received : ℕ
  errors : ℕ
  min : ℚ
  max : ℚ
  sum1 : ℚ
  sum2 : ℚ
  mean : ℚ
  stddevSq : ℚ
deriving DecidableEq

/-- The zero value `PingStats{}` used by `ICMP4Handler`. -/
def pingStats4Init : PingStats :=
  { transmitted := 0, received := 0, errors := 0, min := 0, max := 0
    sum1 := 0, sum2 := 0, mean := 0, stddevSq := 0 }

/-- `PingStats{min: -1}` used by `ICMP6Handler`. -/
def pingStats6Init : PingStats :=
  { pingStats4Init with min := -1 }

/-- `iterativeStats` from `stats.go`.  The Go method performs three
sequential `if` updates; since the second `if` reads the min it may just
have written (and `time < time` is false) and the third reads the untouched
max, the net effect is the closed form below.  `math.Pow(time, 2)` is
`time ^ 2`. -/
def PingStats.iterativeStats (stats : PingStats) (time : ℚ) : PingStats :=
  { stats with
    min := if stats.received = 1 then time
           else if time < stats.min then time else stats.min
    max := if stats.max < time then time else stats.max
    sum1 := stats.sum1 + time
    sum2 := stats.sum2 + time ^ 2 }

/-- `finalStats` from `stats.go`: `mean = S1 / received` and
`stddev = sqrt(S2 / received - mean^2)` (we record the radicand, see
`PingStats`).  There is no guard: the divisions happen whatever
`received` is. -/
def PingStats.finalStats (stats : PingStats) : PingStats :=
  { stats with
    mean := stats.sum1 / (stats.received : ℚ)
    stddevSq := stats.sum2 / (stats.received : ℚ)
                - (stats.sum1 / (stats.received : ℚ)) ^ 2 }

/-- What `PrintStatistics` prints: the counts line (with its loss
percentage) and, only when `received > 0`, the round-trip line
`min/mean/max/stddev` (the last component again as the radicand of the
printed square root). -/
structure Summary where
  transmitted : ℕ
  received : ℕ
  errors : ℕ
  lossPct : ℚ
  latency : Option (ℚ × ℚ × ℚ × ℚ)
deriving DecidableEq

/-- `PrintStatistics` from `stats.go`.  `dropPercentage` starts at `0.0`
and is overwritten only when `transmitted > 0`; the subtraction
`transmitted - received` is Go `int` subtraction, so it is carried out in
`ℚ`, not truncated.  The `%.1f` rendering of the percentage is `fmt`
formatting and is not part of the value model. -/
def PrintStatistics (stats : PingStats) : Summary :=
  { transmitted := stats.transmitted
    received := stats.received
    errors := stats.errors
    lossPct :=
      if 0 < stats.transmitted then
        ((stats.transmitted : ℚ) - (stats.received : ℚ))
          / (stats.transmitted : ℚ) * 100
      else 0
    latency :=
      if 0 < stats.received then
        some ((stats.finalStats).min, (stats.finalStats).mean,
              (stats.finalStats).max, (stats.finalStats).stddevSq)
      else none }

/-- The loss percentage exactly as §4.4/§8 of the specification word it. -/
def lossPercentSpec (transmitted received : ℕ) : ℚ :=
  if transmitted = 0 then 0
  else ((transmitted : ℚ) - (received : ℚ)) / (transmitted : ℚ) * 100

/-!
## ICMP wire codec

`constructMarshalledMessage` (icmp.go) builds a `golang.org/x/net/icmp`
`Message` and calls `Message.Marshal(nil)`; inbound bytes go through
`icmp.ParseMessage`.  Both library functions are embedded below from the
library source: bytes are naturals `< 256`, byte casts are `% 256`.
-/

/-- An ICMP type as `ParseMessage` produces it: `ipv4.ICMPType` and
`ipv6.ICMPType` are distinct Go types, so the numeric value is tagged with
the family (e.g. v4 type 3 is DestinationUnreachable while v6 type 3 is
TimeExceeded). -/
inductive ICMPTypeM where
  | v4 (t : ℕ)
  | v6 (t : ℕ)
deriving DecidableEq

/-- `Type.Protocol()`: 1 for `ipv4.ICMPType`, 58 for `ipv6.ICMPType`. -/
def ICMPTypeM.protocol : ICMPTypeM → ℕ
  | .v4 _ => 1
  | .v6 _ => 58

/-- The raw type byte of the message. -/
def ICMPTypeM.byteVal : ICMPTypeM → ℕ
  | .v4 t => t
  | .v6 t => t

/-- A parsed message body.  The program only ever inspects bodies through
the `*icmp.Echo` type assertion, so non-echo bodies are collapsed into
`other`. -/
inductive ICMPBody where
  | echo (id seq : ℕ) (data : List ℕ)
  | other
deriving DecidableEq

/-- `icmp.Message` as `ParseMessage` returns it (header fields plus body). -/
structure ICMPMessage where
  typ : ICMPTypeM
  code : ℕ
  checksum : ℕ
  body : ICMPBody
deriving DecidableEq

/-- The x/net/icmp internet checksum: sum 16-bit little-endian word pairs,
adding a trailing odd byte as-is. -/
def checksumWords : List ℕ → ℕ
  | [] => 0
  | [b0] => b0
  | b0 :: b1 :: rest => (b1 * 256 + b0) + checksumWords rest

/-- Fold the carries and complement, exactly as the library's `checksum`:
two folding steps, truncation to `uint16`, bitwise not (`65535 - x` on a
16-bit value). -/
def checksum (b : List ℕ) : ℕ :=
  let s1 := checksumWords b
  let s2 := s1 / 65536 + s1 % 65536
  let s3 := s2 + s2 / 65536
  65535 - s3 % 65536

/-- `icmp.Echo.Marshal`: big-endian ID, big-endian Seq, then the payload;
`byte(x >> 8)` is `x / 256 % 256` and `byte(x)` is `x % 256`. -/
def echoMarshal (id seq : ℕ) (data : List ℕ) : List ℕ :=
  [id / 256 % 256, id % 256, seq / 256 % 256, seq % 256] ++ data

/-- `icmp.Message.Marshal(nil)` for an echo message: header
`[type, code, 0, 0]` followed by the body; for ICMP (protocol 1) the
checksum is computed over the whole message and xor-ed into the two zero
checksum bytes (low byte first, per the library); for ICMPv6 (protocol 58)
with a nil pseudo header the function returns before the checksum, leaving
the two bytes zero for the kernel. -/
def marshalMessage (typ proto id seq : ℕ) (data : List ℕ) : List ℕ :=
  if proto = 58 then
    [typ % 256, 0, 0, 0] ++ echoMarshal id seq data
  else
    [typ % 256, 0,
     checksum ([typ % 256, 0, 0, 0] ++ echoMarshal id seq data) % 256,
     checksum ([typ % 256, 0, 0, 0] ++ echoMarshal id seq data) / 256 % 256]
      ++ echoMarshal id seq data

/-- The fixed payload from `constructMarshalledMessage`. -/
def pingPayload : List ℕ :=
  "Never stop learning because life never stops teaching!!!".data.map Char.toNat

/-- `constructMarshalledMessage` (icmp.go:51): echo message with
`ID = os.Getpid() & 0xffff` (that is, `pid % 2^16`), the given sequence
number, the fixed payload, marshalled for the type's protocol.  The
process id is a parameter.  `Marshal` cannot fail on these inputs; the
handler's error branch for it is reached only through the abstract
iteration environment. -/
def constructMarshalledMessage (msgType : ICMPTypeM) (seq pid : ℕ) : List ℕ :=
  marshalMessage msgType.byteVal msgType.protocol (pid % 65536) seq pingPayload

/-- `icmp.parseEcho`: needs at least 4 body bytes, reads big-endian ID and
Seq, keeps the rest as data. -/
def parseEcho (b : List ℕ) : Option ICMPBody :=
  match b with
  | i1 :: i2 :: s1 :: s2 :: data => some (.echo (i1 * 256 + i2) (s1 * 256 + s2) data)
  | _ => none

/-- Body parsing for `ipv4.ICMPType` values: echo and echo-reply use
`parseEcho`; destination-unreachable (3), time-exceeded (11) and
parameter-problem (12) have library parsers that fail on fewer than 4 body
bytes; remaining types fall back to a raw body that always parses. -/
def parse4Body (t : ℕ) (b : List ℕ) : Option ICMPBody :=
  if t = 0 ∨ t = 8 then parseEcho b
  else if t = 3 ∨ t = 11 ∨ t = 12 then
    if b.length < 4 then none else some .other
  else some .other

/-- Body parsing for `ipv6.ICMPType` values: echo-request/reply use
`parseEcho`; destination-unreachable (1), packet-too-big (2),
time-exceeded (3) and parameter-problem (4) fail on fewer than 4 body
bytes; remaining types (including the neighbor/router discovery types
133-136) fall back to a raw body that always parses. -/
def parse6Body (t : ℕ) (b : List ℕ) : Option ICMPBody :=
  if t = 128 ∨ t = 129 then parseEcho b
  else if t = 1 ∨ t = 2 ∨ t = 3 ∨ t = 4 then
    if b.length < 4 then none else some .other
  else some .other

/-- `icmp.ParseMessage`: fewer than 4 bytes is `errMessageTooShort`; the
first byte is the type (tagged with the protocol's family), the second the
code, bytes 2-3 the big-endian checksum (recorded, never verified); the
rest is parsed per type.  Protocols other than 1 and 58 are
`errNotICMPMessage`. -/
def parseMessage (proto : ℕ) (b : List ℕ) : Option ICMPMessage :=
  match b with
  | t :: c :: k1 :: k2 :: rest =>
    if proto = 1 then
      (parse4Body t rest).map (fun bd =>
        { typ := .v4 t, code := c, checksum := k1 * 256 + k2, body := bd })
    else if proto = 58 then
      (parse6Body t rest).map (fun bd =>
        { typ := .v6 t, code := c, checksum := k1 * 256 + k2, body := bd })
    else none
  | _ => none

/-!
## Probe loop

`ICMP4Handler`/`ICMP6Handler` (icmp.go) run `for i := range info.CNT`:
`stats.transmitted++`, then construct / set deadline / send / receive /
classify, each failure incrementing `stats.errors`, printing one line and
continuing.  What the outside world does in one iteration is an `IterEnv`.
-/

/-- One `fmt.Printf` call of the per-probe path, carrying the interpolated
data of each format string in icmp.go. -/
inductive Line where
  | encodeError
  | sendError
  | timeout (seq : ℕ)
  | readError
  | parseError
  | invalidEcho
  | success (bytes : ℕ) (peer : String) (seq ttl : ℕ) (ms : ℚ)
  | unreachable (peer : String) (seq : ℕ)
  | timeExceeded (peer : String) (seq : ℕ) (hopLimit : Bool)
  | infoV6 (peer : String) (seq : ℕ) (typ : ICMPTypeM)
  | unknownType (peer : String) (seq : ℕ) (typ : ICMPTypeM)
deriving DecidableEq

/-- `printICMPResponse` (icmp.go:151): parse, then the Go `switch` on the
reply type in source order.  On an echo reply the body's type assertion to
`*icmp.Echo` decides between the success path (`received++`, feed
`elapsedMs` into `iterativeStats`, print the success line with the reply
body's own `echo.Seq`) and the invalid-echo error path.  IPv6
neighbor/router discovery types print without touching any counter; every
branch prints exactly one line. -/
def printICMPResponse (proto : ℕ) (data : List ℕ) (peer : String)
    (seq receivedTTL : ℕ) (elapsedMs : ℚ) (stats : PingStats) :
    PingStats × List Line :=
  match parseMessage proto data with
  | none => ({ stats with errors := stats.errors + 1 }, [.parseError])
  | some reply =>
    if reply.typ = .v4 0 ∨ reply.typ = .v6 129 then
      match reply.body with
      | .echo _ eseq _ =>
        (({ stats with received := stats.received + 1 }).iterativeStats elapsedMs,
          [.success data.length peer eseq receivedTTL elapsedMs])
      | .other => ({ stats with errors := stats.errors + 1 }, [.invalidEcho])
    else if reply.typ = .v4 3 ∨ reply.typ = .v6 1 then
      ({ stats with errors := stats.errors + 1 }, [.unreachable peer seq])
    else if reply.typ = .v4 11 ∨ reply.typ = .v6 3 then
      ({ stats with errors := stats.errors + 1 },
        [.timeExceeded peer seq (proto ≠ 1)])
    else if reply.typ = .v6 136 ∨ reply.typ = .v6 135
         ∨ reply.typ = .v6 134 ∨ reply.typ = .v6 133 then
      (stats, [.infoV6 peer seq reply.typ])
    else
      ({ stats with errors := stats.errors + 1 }, [.unknownType peer seq reply.typ])

/-- `printReadError` (icmp.go:216): a timeout (`net.Error` with
`Timeout()`) prints the request-timeout line, anything else the generic
read-error line; both increment `errors`. -/
def printReadError (isTimeout : Bool) (seq : ℕ) (stats : PingStats) :
    PingStats × List Line :=
  if isTimeout then
    ({ stats with errors := stats.errors + 1 }, [.timeout seq])
  else
    ({ stats with errors := stats.errors + 1 }, [.readError])

/-- What the outside world does in one loop iteration: marshalling fails,
the send fails, the read fails (timeout or other error), or a datagram
arrives carrying raw bytes, a measured latency, a TTL/hop limit and a peer
address. -/
inductive IterEnv where
  | encodeFail
  | sendFail
  | recvTimeout
  | recvFail
  | recvOk (data : List ℕ) (elapsedMs : ℚ) (ttl : ℕ) (peer : String)

/-- One iteration of the send loop (icmp.go:357-391 and the identical v6
loop): `transmitted++` happens first, before the construct and the send,
so every outcome, failures included, counts as transmitted; each failure
increments `errors`, prints its line and `continue`s. -/
def probeIteration (proto seq : ℕ) (e : IterEnv) (stats : PingStats) :
    PingStats × List Line :=
  let stats := { stats with transmitted := stats.transmitted + 1 }
  match e with
  | .encodeFail => ({ stats with errors := stats.errors + 1 }, [.encodeError])
  | .sendFail => ({ stats with errors := stats.errors + 1 }, [.sendError])
  | .recvTimeout => printReadError true seq stats
  | .recvFail => printReadError false seq stats
  | .recvOk data ms ttl peer => printICMPResponse proto data peer seq ttl ms stats

/-- The loop `for i := range cnt` run for its first `k` iterations
(sequence numbers 0 through k-1), accumulating the printed per-probe
lines. -/
def runProbes (proto : ℕ) (env : ℕ → IterEnv) (init : PingStats) :
    ℕ → PingStats × List Line
  | 0 => (init, [])
  | k + 1 =>
    let prev := runProbes proto env init k
    let step := probeIteration proto k (env k) prev.1
    (step.1, prev.2 ++ step.2)

/-- The observable outcome of a handler run: the statistics when the loop
ends, the state after the unconditional `stats.finalStats()` that follows
the loop (icmp.go:393 resp. :306), the printed summary, and the per-probe
lines. -/
structure HandlerRun where
  loopState : PingStats
  finalState : PingStats
  summary : Summary
  probeLines : List Line
deriving DecidableEq

/-- `ICMP4Handler` (icmp.go:311): zero-value stats, protocol 1 loop over
`info.CNT`, then `stats.finalStats()` unconditionally and
`PrintStatistics(&stats)`.  Socket setup and the signal-handling goroutine
are environment interaction outside this state model. -/
def ICMP4Handler (cnt : ℕ) (env : ℕ → IterEnv) : HandlerRun :=
  let run := runProbes 1 env pingStats4Init cnt
  { loopState := run.1
    finalState := run.1.finalStats
    summary := PrintStatistics run.1.finalStats
    probeLines := run.2 }

/-- `ICMP6Handler` (icmp.go:227): stats start with `min = -1`, protocol 58,
otherwise the same loop shape as `ICMP4Handler`. -/
def ICMP6Handler (cnt : ℕ) (env : ℕ → IterEnv) : HandlerRun :=
  let run := runProbes 58 env pingStats6Init cnt
  { loopState := run.1
    finalState := run.1.finalStats
    summary := PrintStatistics run.1.finalStats
    probeLines := run.2 }

/-!
## Address resolution

`AddrOptions`, `valIPv4`, `valIPv6`, `validateHostname`, `HostToAddr` and
`AddrResolution` from the resolver file, plus the handler selection of the
cobra root command.  `net.ParseIP` delegates to `netip.ParseAddr` and
returns a 16-byte address (nil for parse failures and zoned addresses);
both parsers are embedded below from the Go standard library source.
-/

/-- Command-line family flags; the struct documentation promises that
pinger exits when both are set and uses IPv4 when neither is. -/
structure AddrOptions where
  V4 : Bool
  V6 : Bool
deriving DecidableEq

/-- The preprocessed address handed to the probe engine. -/
structure UnMarshalledAddr where
  Addr : String
  IsIPv6 : Bool
deriving DecidableEq

/-- `netip.parseIPv4Fields`: decimal octets separated by dots, rejecting
leading zeros, values over 255, empty fields and anything but exactly four
fields.  State: the running octet value, the digits seen in the current
octet, and the completed fields. -/
def parseV4Loop : List Char → ℕ → ℕ → List ℕ → Option (List ℕ)
  | [], val, digLen, fields =>
    if digLen = 0 ∨ fields.length ≠ 3 then none else some (fields ++ [val])
  | c :: cs, val, digLen, fields =>
    if c.isDigit then
      if digLen = 1 ∧ val = 0 then none
      else
        if 255 < val * 10 + (c.toNat - 48) then none
        else parseV4Loop cs (val * 10 + (c.toNat - 48)) (digLen + 1) fields
    else if c = '.' then
      if digLen = 0 then none
      else if fields.length = 3 then none
      else parseV4Loop cs 0 0 (fields ++ [val])
    else none

/-- An IPv4 dotted-decimal literal parsed to its four octets. -/
def parseIPv4 (cs : List Char) : Option (List ℕ) :=
  parseV4Loop cs 0 0 []

/-- A hexadecimal digit's value, matching the inlined hex parsing of
`netip.parseIPv6`. -/
def hexDigit? (c : Char) : Option ℕ :=
  if '0' ≤ c ∧ c ≤ '9' then some (c.toNat - 48)
  else if 'a' ≤ c ∧ c ≤ 'f' then some (c.toNat - 97 + 10)
  else if 'A' ≤ c ∧ c ≤ 'F' then some (c.toNat - 65 + 10)
  else none

/-- Consume leading hex digits into a 16-bit group; `none` when a group
reaches 2^16 ("IPv6 field has value >=2^16").  Returns the value, the
number of digits consumed and the remaining characters. -/
def takeHexGroup : List Char → ℕ → ℕ → Option (ℕ × ℕ × List Char)
  | [], acc, off => some (acc, off, [])
  | c :: cs, acc, off =>
    match hexDigit? c with
    | none => some (acc, off, c :: cs)
    | some d =>
      if 65536 ≤ acc * 16 + d then none
      else takeHexGroup cs (acc * 16 + d) (off + 1)

/-- The main loop of `netip.parseIPv6`, with the remaining group count as
fuel (the Go loop runs while `i < 16`, and every iteration either appends
one two-byte group, parses an embedded IPv4 trailer and stops, or fails).
State: the characters left, the byte position of the `::` if one was seen,
and the bytes accumulated so far. -/
def parseV6Loop : ℕ → List Char → Option ℕ → List ℕ → Option (List ℕ × Option ℕ)
  | 0, s, ell, bytes => if s.isEmpty then some (bytes, ell) else none
  | g + 1, s, ell, bytes =>
    match takeHexGroup s 0 0 with
    | none => none
    | some (acc, off, rest) =>
      if off = 0 then none
      else if rest.head? = some '.' then
        if ell = none ∧ bytes.length ≠ 12 then none
        else if 16 < bytes.length + 4 then none
        else
          match parseIPv4 s with
          | none => none
          | some f4 => some (bytes ++ f4, ell)
      else
        if rest.isEmpty then some (bytes ++ [acc / 256, acc % 256], ell)
        else if rest.head? ≠ some ':' then none
        else if rest.length = 1 then none
        else if rest.tail.head? = some ':' then
          if ell ≠ none then none
          else if rest.tail.tail.isEmpty then
            some (bytes ++ [acc / 256, acc % 256],
                  some (bytes ++ [acc / 256, acc % 256]).length)
          else
            parseV6Loop g rest.tail.tail
              (some (bytes ++ [acc / 256, acc % 256]).length)
              (bytes ++ [acc / 256, acc % 256])
        else parseV6Loop g rest.tail ell (bytes ++ [acc / 256, acc % 256])

/-- After the loop: a full 16 bytes with a `::` is an error (the `::` must
expand to at least one group); fewer than 16 bytes without a `::` is too
short; otherwise the `::` position is zero-filled up to 16 bytes. -/
def v6Expand (bytes : List ℕ) (ell : Option ℕ) : Option (List ℕ) :=
  if bytes.length = 16 then
    match ell with
    | some _ => none
    | none => some bytes
  else
    match ell with
    | none => none
    | some e =>
      some (bytes.take e ++ List.replicate (16 - bytes.length) 0 ++ bytes.drop e)

/-- `netip.parseIPv6` as observed through `net.ParseIP`: a `%` means a
zone (or a malformed address), and `net.ParseIP` rejects every zoned
address, so any `%` yields `none` here; a leading `::` may stand alone or
start the group loop with the ellipsis at position 0. -/
def parseIPv6 (cs : List Char) : Option (List ℕ) :=
  if cs.contains '%' then none
  else
    match cs with
    | ':' :: ':' :: rest =>
      if rest.isEmpty then some (List.replicate 16 0)
      else
        match parseV6Loop 8 rest (some 0) [] with
        | none => none
        | some (bytes, ell) => v6Expand bytes ell
    | _ =>
      match parseV6Loop 8 cs none [] with
      | none => none
      | some (bytes, ell) => v6Expand bytes ell

/-- The dispatch characters of `netip.ParseAddr`: the first `.`, `:` or
`%` in the string decides how it is parsed. -/
def isAddrSpecial (c : Char) : Bool :=
  c = '.' || c = ':' || c = '%'

/-- Four IPv4 octets as the 16-byte form `netip.Addr.As16` produces
(IPv4-mapped IPv6). -/
def v4in6 (fields : List ℕ) : List ℕ :=
  [0, 0, 0, 0, 0, 0, 0, 0, 0, 0, 255, 255] ++ fields

/-- `net.ParseIP`: scan for the first special character; a `.` parses as
dotted-decimal IPv4 (returned in 16-byte mapped form, as modern `net`
does), a `:` as IPv6, a `%` first (or no special character at all) is a
failure.  The result is the 16-byte address, or `none` where Go returns a
nil `IP`. -/
def parseIP (s : String) : Option (List ℕ) :=
  match s.data.find? isAddrSpecial with
  | some '.' => (parseIPv4 s.data).map v4in6
  | some ':' => parseIPv6 s.data
  | _ => none

/-- `IP.To16() != nil`: true for 4-byte and 16-byte addresses — hence for
every address `net.ParseIP` can return. -/
def to16exists (ip : List ℕ) : Bool :=
  ip.length == 4 || ip.length == 16

/-- `IP.To4() != nil`: a 4-byte address, or a 16-byte IPv4-mapped address
(ten zero bytes then `0xff 0xff`). -/
def to4exists (ip : List ℕ) : Bool :=
  ip.length == 4 ||
    (ip.length == 16 && ip.take 10 == List.replicate 10 0
      && ip.getD 10 0 == 255 && ip.getD 11 0 == 255)

/-- `valIPv6`: `net.ParseIP` then `To16`; returns the flag and the
optional error, as the Go pair `(bool, error)`. -/
def valIPv6 (addr : String) : Bool × Option String :=
  match parseIP addr with
  | none => (false, some (addr ++ " is not a valid IP address"))
  | some ip => if to16exists ip then (true, none) else (false, none)

/-- `valIPv4`: `net.ParseIP` then `To4`. -/
def valIPv4 (addr : String) : Bool × Option String :=
  match parseIP addr with
  | none => (false, some (addr ++ " is not a valid IP address"))
  | some ip => if to4exists ip then (true, none) else (false, none)

/-- Split a character list at every occurrence of `sep`,
like `strings`/`String.splitOn` with a one-character separator. -/
def splitChar (sep : Char) : List Char → List (List Char)
  | [] => [[]]
  | c :: cs =>
    let r := splitChar sep cs
    if c = sep then [] :: r
    else (c :: r.headD []) :: r.tail

/-- Whether two consecutive dots occur (`strings.Contains(host, "..")`). -/
def hasConsecutiveDots : List Char → Bool
  | '.' :: '.' :: _ => true
  | _ :: cs => hasConsecutiveDots cs
  | [] => false

/-- ASCII-whitespace trim standing in for `strings.TrimSpace` (the
hostnames the program meets contain no exotic Unicode spaces). -/
def trimChars (cs : List Char) : List Char :=
  ((cs.dropWhile Char.isWhitespace).reverse.dropWhile Char.isWhitespace).reverse

/-- A character allowed inside a hostname label: `[a-zA-Z0-9\-]`. -/
def isLabelChar (c : Char) : Bool :=
  c.isAlphanum || c = '-'

/-- One non-final label of the hostname regex:
`[a-zA-Z0-9]|[a-zA-Z0-9][a-zA-Z0-9\-]*[a-zA-Z0-9]` — nonempty, first and
last characters alphanumeric, hyphens allowed in between. -/
def validHostLabel (l : List Char) : Bool :=
  !l.isEmpty && l.all isLabelChar
    && (l.headD '-').isAlphanum && (l.getLastD '-').isAlphanum

/-- The final label `[a-zA-Z]{1,}`: nonempty and purely alphabetic. -/
def finalLabelAlpha (l : List Char) : Bool :=
  !l.isEmpty && l.all Char.isAlpha

/-- `validateHostname`: trim, reject `".."`, then match
`^(([a-zA-Z0-9]|[a-zA-Z0-9][a-zA-Z0-9\-]*[a-zA-Z0-9])\.)*([a-zA-Z]{1,})$`.
Neither the label alternatives nor the final label can contain a dot, so a
string matches the regex exactly when splitting it on dots yields
non-final labels matching the label alternative and a final purely
alphabetic label; the `".."` check is subsumed (an empty label fails) but
kept as the source keeps it. -/
def validateHostname (host : String) : Bool :=
  let h := trimChars host.data
  if hasConsecutiveDots h then false
  else
    match (splitChar '.' h).reverse with
    | [] => false
    | lastLabel :: initLabels =>
      finalLabelAlpha lastLabel && initLabels.all validHostLabel

/-- `HostToAddr`'s loop over the resolved addresses: the first address
passing `options.V4 && valIPv4` or `options.V6 && valIPv6` wins (errors
from the validators are discarded, as in the source); an exhausted list is
the could-not-resolve error. -/
def hostToAddrLoop (host : String) (options : AddrOptions) :
    List String → Except String UnMarshalledAddr
  | [] =>
    .error ("could not resolve hostname " ++ host
      ++ ". Please ensure a valid hostname is used")
  | ip :: rest =>
    if options.V4 && (valIPv4 ip).1 then .ok ⟨ip, false⟩
    else if options.V6 && (valIPv6 ip).1 then .ok ⟨ip, true⟩
    else hostToAddrLoop host options rest

/-- `HostToAddr` (resolver, lines 96-131): the both-flags conflict is
checked first, before the DNS lookup (and hence before any socket
exists); `net.LookupHost` is the `lookup` parameter.  With neither flag
set and a nonempty result, the FIRST address is returned with
`IsIPv6 := valIPv6(ip)` (its error discarded); otherwise the loop above
runs. -/
def HostToAddr (lookup : String → Except String (List String))
    (host : String) (options : AddrOptions) : Except String UnMarshalledAddr :=
  if options.V4 && options.V6 then
    .error "only one -4 or -6 option may be specified"
  else
    match lookup host with
    | .error e => .error e
    | .ok listOfIPs =>
      if !options.V4 && !options.V6 && !listOfIPs.isEmpty then
        .ok ⟨listOfIPs.headD "", (valIPv6 (listOfIPs.headD "")).1⟩
      else hostToAddrLoop host options listOfIPs

/-- `AddrResolution` (resolver, lines 138-178): hostname-looking strings
go through `HostToAddr`; anything else is treated as an IP literal —
`valIPv6` error aborts, `options.V6 && isIPv6` returns the literal as
IPv6, then `valIPv4` decides the IPv4 return, and mismatched flags fall
through to option-mismatch errors.  Note no both-flags check on the
literal path. -/
def AddrResolution (lookup : String → Except String (List String))
    (host : String) (options : AddrOptions) : Except String UnMarshalledAddr :=
  if validateHostname host then HostToAddr lookup host options
  else
    match (valIPv6 host).2 with
    | some e => .error e
    | none =>
      if options.V6 && (valIPv6 host).1 then .ok ⟨host, true⟩
      else
        match (valIPv4 host).2 with
        | some e => .error e
        | none =>
          if (valIPv4 host).1 then .ok ⟨host, false⟩
          else if options.V6 ≠ (valIPv6 host).1 then
            .error ("option -6 specified does not match given IP: " ++ host)
          else if options.V4 ≠ (valIPv4 host).1 then
            .error ("option -4 specified does not match given IP: " ++ host)
          else .error "warning: an unexpected error occurred"

/-- Which probe engine the root command starts. -/
inductive Handler where
  | v4
  | v6
deriving DecidableEq

/-- The root command's `Run` (root.go:34-62): resolve, abort on error,
otherwise pick `ICMP6Handler` exactly when `IsIPv6` is set. -/
def rootCmdSelect (lookup : String → Except String (List String))
    (host : String) (options : AddrOptions) : Except String Handler :=
  match AddrResolution lookup host options with
  | .error e => .error e
  | .ok verified => .ok (if verified.IsIPv6 then .v6 else .v4)

/-!
## Concrete environments used by the theorems
-/

/-- The run used to exhibit the unguarded finalization: a single probe
that times out, so the loop ends with `received = 0`. -/
def envAllTimeout : ℕ → IterEnv := fun _ => .recvTimeout

/-- The forced reply stream of §8: five sequence numbers, sequence 2 times
out, the others are echo replies with latencies 10, 20, 30, 40 ms. -/
def envScenario : ℕ → IterEnv :=
  fun i => match i with
  | 0 => .recvOk [0, 0, 0, 0, 0, 1, 0, 0] 10 64 "1.2.3.4"
  | 1 => .recvOk [0, 0, 0, 0, 0, 1, 0, 1] 20 64 "1.2.3.4"
  | 2 => .recvTimeout
  | 3 => .recvOk [0, 0, 0, 0, 0, 1, 0, 3] 30 64 "1.2.3.4"
  | _ => .recvOk [0, 0, 0, 0, 0, 1, 0, 4] 40 64 "1.2.3.4"

/-- A DNS stub that always fails; resolutions that never reach the lookup
are insensitive to it. -/
def noLookup : String → Except String (List String) :=
  fun _ => .error "lookup unavailable"

/-- A DNS stub resolving `example.com` to both families, IPv6 first (the
order `net.LookupHost` is free to return). -/
def lookupBoth : String → Except String (List String) :=
  fun h => if h = "example.com" then .ok ["::1", "93.184.216.34"] else .error "no such host"

/-!
## Helper lemmas
-/

/-- `iterativeStats` never touches the three counters. -/
theorem iterativeStats_counters (s : PingStats) (t : ℚ) :
    (s.iterativeStats t).transmitted = s.transmitted
    ∧ (s.iterativeStats t).received = s.received
    ∧ (s.iterativeStats t).errors = s.errors :=
  ⟨rfl, rfl, rfl⟩

/-- Counter bookkeeping of one reply classification: `transmitted` is
untouched, and exactly one of "received++", "errors++", "nothing" happens. -/
theorem printICMPResponse_step (proto : ℕ) (data : List ℕ) (peer : String)
    (seq ttl : ℕ) (ms : ℚ) (s : PingStats) :
    (printICMPResponse proto data peer seq ttl ms s).1.transmitted = s.transmitted
    ∧ (((printICMPResponse proto data peer seq ttl ms s).1.received = s.received + 1
          ∧ (printICMPResponse proto data peer seq ttl ms s).1.errors = s.errors)
        ∨ ((printICMPResponse proto data peer seq ttl ms s).1.received = s.received
          ∧ (printICMPResponse proto data peer seq ttl ms s).1.errors = s.errors + 1)
        ∨ ((printICMPResponse proto data peer seq ttl ms s).1.received = s.received
          ∧ (printICMPResponse proto data peer seq ttl ms s).1.errors = s.errors))
    ∧ (printICMPResponse proto data peer seq ttl ms s).2.length = 1 := by
  unfold printICMPResponse
  cases h : parseMessage proto data with
  | none => exact ⟨rfl, Or.inr (Or.inl ⟨rfl, rfl⟩), rfl⟩
  | some reply =>
    cases hb : reply.body <;> simp only [hb] <;> split_ifs <;>
      first
        | exact ⟨rfl, Or.inl ⟨rfl, rfl⟩, rfl⟩
        | exact ⟨rfl, Or.inr (Or.inl ⟨rfl, rfl⟩), rfl⟩
        | exact ⟨rfl, Or.inr (Or.inr ⟨rfl, rfl⟩), rfl⟩

/-- Counter bookkeeping of one whole loop iteration: `transmitted` grows by
exactly one before anything else can happen, at most one of
`received`/`errors` grows by one, and exactly one line is printed. -/
theorem probeIteration_step (proto i : ℕ) (e : IterEnv) (s : PingStats) :
    (probeIteration proto i e s).1.transmitted = s.transmitted + 1
    ∧ (probeIteration proto i e s).1.received
        + (probeIteration proto i e s).1.errors ≤ s.received + s.errors + 1
    ∧ (probeIteration proto i e s).2.length = 1 := by
  cases e with
  | encodeFail =>
    exact ⟨rfl, by simp [probeIteration]; omega, rfl⟩
  | sendFail =>
    exact ⟨rfl, by simp [probeIteration]; omega, rfl⟩
  | recvTimeout =>
    exact ⟨rfl, by simp [probeIteration, printReadError]; omega, rfl⟩
  | recvFail =>
    exact ⟨rfl, by simp [probeIteration, printReadError]; omega, rfl⟩
  | recvOk data ms ttl peer =>
    obtain ⟨ht, hc, hl⟩ := printICMPResponse_step proto data peer i ttl ms
      { s with transmitted := s.transmitted + 1 }
    refine ⟨ht, ?_, hl⟩
    show (printICMPResponse proto data peer i ttl ms
        { s with transmitted := s.transmitted + 1 }).1.received
      + (printICMPResponse proto data peer i ttl ms
        { s with transmitted := s.transmitted + 1 }).1.errors
      ≤ s.received + s.errors + 1
    have h1 : ({ s with transmitted := s.transmitted + 1 } : PingStats).received
        = s.received := rfl
    have h2 : ({ s with transmitted := s.transmitted + 1 } : PingStats).errors
        = s.errors := rfl
    rcases hc with ⟨a, b⟩ | ⟨a, b⟩ | ⟨a, b⟩ <;> omega

/-- After `k` iterations the loop has transmitted exactly
`init.transmitted + k` probes, the received/error counters have grown by
at most `k`, and exactly `k` per-probe lines were printed. -/
theorem runProbes_step (proto : ℕ) (env : ℕ → IterEnv) (init : PingStats) :
    ∀ k, (runProbes proto env init k).1.transmitted = init.transmitted + k
    ∧ (runProbes proto env init k).1.received
        + (runProbes proto env init k).1.errors
        ≤ init.received + init.errors + k
    ∧ (runProbes proto env init k).2.length = k := by
  intro k
  induction k with
  | zero =>
    refine ⟨rfl, ?_, rfl⟩
    show init.received + init.errors ≤ init.received + init.errors + 0
    omega
  | succ n ih =>
    have h := probeIteration_step proto n (env n) (runProbes proto env init n).1
    refine ⟨?_, ?_, ?_⟩
    · simp only [runProbes]; omega
    · simp only [runProbes]; omega
    · simp only [runProbes, List.length_append]; omega

/-- Every character a successful dotted-decimal parse consumed is a digit
or a dot. -/
theorem parseV4Loop_chars : ∀ (cs : List Char) (val dig : ℕ) (fields out : List ℕ),
    parseV4Loop cs val dig fields = some out → ∀ c ∈ cs, c.isDigit ∨ c = '.' := by
  intro cs
  induction cs with
  | nil => intro _ _ _ _ _ c hc; simp at hc
  | cons c cs ih =>
    intro val dig fields out h c' hc'
    simp only [parseV4Loop] at h
    split_ifs at h <;> try simp at h
    all_goals rcases List.mem_cons.mp hc' with rfl | hmem
    all_goals first
      | exact Or.inl (by assumption)
      | exact Or.inr (by assumption)
      | exact ih _ _ _ _ h _ hmem

/-- A successful dotted-decimal parse starting below three completed
fields must have consumed a dot. -/
theorem parseV4Loop_hasDot : ∀ (cs : List Char) (val dig : ℕ) (fields out : List ℕ),
    parseV4Loop cs val dig fields = some out → fields.length < 3 → '.' ∈ cs := by
  intro cs
  induction cs with
  | nil =>
    intro val dig fields out h hlt
    simp only [parseV4Loop] at h
    split_ifs at h with h1
    simp only [not_or, ne_eq, not_not] at h1
    omega
  | cons c cs ih =>
    intro val dig fields out h hlt
    simp only [parseV4Loop] at h
    split_ifs at h <;> try simp at h
    all_goals first
      | (rw [show c = '.' by assumption]; exact List.mem_cons_self _ _)
      | exact List.mem_cons_of_mem _ (ih _ _ _ _ h hlt)

/-- A successful dotted-decimal parse yields exactly four octets. -/
theorem parseV4Loop_len : ∀ (cs : List Char) (val dig : ℕ) (fields out : List ℕ),
    parseV4Loop cs val dig fields = some out → out.length = 4 := by
  intro cs
  induction cs with
  | nil =>
    intro val dig fields out h
    simp only [parseV4Loop] at h
    split_ifs at h with h1
    simp only [not_or, ne_eq, not_not] at h1
    rw [← Option.some.inj h]
    simp [h1.2]
  | cons c cs ih =>
    intro val dig fields out h
    simp only [parseV4Loop] at h
    split_ifs at h <;> try simp at h
    all_goals exact ih _ _ _ _ h

/-- In a string of digits and dots containing a dot, the first dispatch
character `netip.ParseAddr` finds is the dot. -/
theorem find_special_of_digits (cs : List Char)
    (hall : ∀ c ∈ cs, c.isDigit ∨ c = '.') (hdot : '.' ∈ cs) :
    cs.find? isAddrSpecial = some '.' := by
  induction cs with
  | nil => simp at hdot
  | cons c cs ih =>
    rcases hall c (List.mem_cons_self _ _) with hd | hd
    · have hns : ¬ isAddrSpecial c := by
        intro hsp
        simp only [isAddrSpecial, Bool.or_eq_true, decide_eq_true_eq] at hsp
        rcases hsp with (rfl | rfl) | rfl <;> simp at hd
      rw [List.find?_cons_of_neg _ hns]
      refine ih (fun c' h' => hall c' (List.mem_cons_of_mem _ h')) ?_
      rcases List.mem_cons.mp hdot with h' | h'
      · rw [← h'] at hd; simp at hd
      · exact h'
    · subst hd
      rw [List.find?_cons_of_pos _ (by simp [isAddrSpecial])]

/-!
## The claims
-/

/-- C1: after every iteration `received + errors ≤ transmitted`;
`transmitted` is incremented exactly once per iteration before any send
attempt (every environment, including encode and send failures, yields
`transmitted + 1`); at loop end `transmitted = CNT`, for both handlers. -/
theorem pinger_C1 (cnt : ℕ) (env : ℕ → IterEnv) :
    ((ICMP4Handler cnt env).finalState.transmitted = cnt
      ∧ (ICMP4Handler cnt env).finalState.received
          + (ICMP4Handler cnt env).finalState.errors
          ≤ (ICMP4Handler cnt env).finalState.transmitted)
    ∧ ((ICMP6Handler cnt env).finalState.transmitted = cnt
      ∧ (ICMP6Handler cnt env).finalState.received
          + (ICMP6Handler cnt env).finalState.errors
          ≤ (ICMP6Handler cnt env).finalState.transmitted)
    ∧ (∀ k, (runProbes 1 env pingStats4Init k).1.received
          + (runProbes 1 env pingStats4Init k).1.errors
          ≤ (runProbes 1 env pingStats4Init k).1.transmitted
        ∧ (runProbes 1 env pingStats4Init k).1.transmitted = k)
    ∧ (∀ k, (runProbes 58 env pingStats6Init k).1.received
          + (runProbes 58 env pingStats6Init k).1.errors
          ≤ (runProbes 58 env pingStats6Init k).1.transmitted
        ∧ (runProbes 58 env pingStats6Init k).1.transmitted = k)
    ∧ (∀ (proto i : ℕ) (e : IterEnv) (s : PingStats),
        (probeIteration proto i e s).1.transmitted = s.transmitted + 1) := by
  have h4 : ∀ k, (runProbes 1 env pingStats4Init k).1.received
      + (runProbes 1 env pingStats4Init k).1.errors
      ≤ (runProbes 1 env pingStats4Init k).1.transmitted
    ∧ (runProbes 1 env pingStats4Init k).1.transmitted = k := by
    intro k
    have h := runProbes_step 1 env pingStats4Init k
    have h0t : pingStats4Init.transmitted = 0 := rfl
    have h0r : pingStats4Init.received = 0 := rfl
    have h0e : pingStats4Init.errors = 0 := rfl
    omega
  have h6 : ∀ k, (runProbes 58 env pingStats6Init k).1.received
      + (runProbes 58 env pingStats6Init k).1.errors
      ≤ (runProbes 58 env pingStats6Init k).1.transmitted
    ∧ (runProbes 58 env pingStats6Init k).1.transmitted = k := by
    intro k
    have h := runProbes_step 58 env pingStats6Init k
    have h0t : pingStats6Init.transmitted = 0 := rfl
    have h0r : pingStats6Init.received = 0 := rfl
    have h0e : pingStats6Init.errors = 0 := rfl
    omega
  refine ⟨⟨(h4 cnt).2, (h4 cnt).1⟩, ⟨(h6 cnt).2, (h6 cnt).1⟩, h4, h6, ?_⟩
  intro proto i e s
  exact (probeIteration_step proto i e s).1

/-- C2 counterexample: `ICMP4Handler` invokes `finalStats` with
`received == 0`.  On the one-probe all-timeout run the loop ends with
`received = 0` and one error, and the handler nevertheless applies
`finalStats` to that state (the unconditional call at icmp.go:393,
reflected in `finalState`), so "finalStats is never invoked with
received == 0" is false.  (In Go the division yields NaN; nothing
crashes.) -/
theorem pinger_C2_cex :
    (ICMP4Handler 1 envAllTimeout).loopState.received = 0
    ∧ (ICMP4Handler 1 envAllTimeout).loopState.errors = 1
    ∧ (ICMP4Handler 1 envAllTimeout).finalState
        = (ICMP4Handler 1 envAllTimeout).loopState.finalStats := by
  exact ⟨rfl, rfl, rfl⟩

/-- C2 (amended): the caller does skip the round-trip latency line when
`received == 0` — `PrintStatistics` computes and prints the
min/mean/max/stddev line only when `received > 0`. -/
theorem pinger_C2 (s : PingStats) (h : s.received = 0) :
    (PrintStatistics s).latency = none := by
  simp [PrintStatistics, h]

/-- C2 witness: the guard in `PrintStatistics` at the zero-value state. -/
theorem pinger_C2_witness :
    pingStats4Init.received = 0 ∧ (PrintStatistics pingStats4Init).latency = none :=
  ⟨rfl, pinger_C2 pingStats4Init rfl⟩

/-- C3: on the forced stream the final statistics are
`transmitted = 5, received = 4, errors = 1`, `min = 10`, `max = 40`,
`mean = 25`, and the printed loss percentage is `20`. -/
theorem pinger_C3 :
    (ICMP4Handler 5 envScenario).finalState.transmitted = 5
    ∧ (ICMP4Handler 5 envScenario).finalState.received = 4
    ∧ (ICMP4Handler 5 envScenario).finalState.errors = 1
    ∧ (ICMP4Handler 5 envScenario).finalState.min = 10
    ∧ (ICMP4Handler 5 envScenario).finalState.max = 40
    ∧ (ICMP4Handler 5 envScenario).finalState.mean = 25
    ∧ (ICMP4Handler 5 envScenario).summary.lossPct = 20 := by
  refine ⟨rfl, rfl, rfl, ?_, ?_, ?_, ?_⟩ <;>
    norm_num [ICMP4Handler, PrintStatistics, runProbes, probeIteration,
      printICMPResponse, printReadError, parseMessage, parse4Body, parseEcho,
      PingStats.iterativeStats, PingStats.finalStats, envScenario, pingStats4Init]

/-- C4: the loss percentage `PrintStatistics` reports is `0` when
`transmitted = 0` and exactly `(transmitted - received)/transmitted * 100`
otherwise, i.e. it refines the specification's formula.  (The `%.1f`
one-decimal rendering in the counts line is `fmt` formatting of this exact
value.) -/
theorem pinger_C4 (s : PingStats) :
    (PrintStatistics s).lossPct = lossPercentSpec s.transmitted s.received := by
  simp only [PrintStatistics, lossPercentSpec]
  rcases Nat.eq_zero_or_pos s.transmitted with h | h
  · simp [h]
  · simp [h, Nat.pos_iff_ne_zero.mp h]

/-- C5: the both-families conflict check lives only in `HostToAddr`, which
only hostname-shaped inputs reach.  For the literal address `8.8.8.8` with
both flags set, `AddrResolution` succeeds (returning the address marked
IPv6!) instead of failing — contradicting the resolver's own documentation
("pinger will exit if both are set true").  For hostnames the check does
fire, before any lookup: with both flags set `HostToAddr` fails identically
for every host and every resolver. -/
theorem pinger_C5_bug :
    AddrResolution noLookup "8.8.8.8" ⟨true, true⟩ = .ok ⟨"8.8.8.8", true⟩
    ∧ ∀ (lookup : String → Except String (List String)) (host : String),
        HostToAddr lookup host ⟨true, true⟩
          = .error "only one -4 or -6 option may be specified" :=
  ⟨rfl, fun _ _ => rfl⟩

/-- C6: with neither flag set, `HostToAddr` returns the FIRST address of
the lookup result whatever its family (and brands it with `valIPv6`, which
is true for every valid literal).  When the resolver yields the IPv6
address first, the returned address is the IPv6 one, not an IPv4 one. -/
theorem pinger_C6_bug :
    HostToAddr lookupBoth "example.com" ⟨false, false⟩ = .ok ⟨"::1", true⟩ := rfl

/-- C7: classification of a successfully parsed inbound message follows
the switch priority: echo-reply with an echo body → success, `received++`
and the latency is fed to the statistics; destination-unreachable →
`errors++`; time-exceeded → `errors++`; IPv6 neighbor/router discovery →
informational, no counter; anything else → `errors++`.  At most one of
`received`/`errors` moves per message. -/
theorem pinger_C7 (proto : ℕ) (data : List ℕ) (peer : String) (seq ttl : ℕ)
    (ms : ℚ) (s : PingStats) (msg : ICMPMessage)
    (h : parseMessage proto data = some msg) :
    ((msg.typ = .v4 0 ∨ msg.typ = .v6 129) →
      ∀ i q d, msg.body = .echo i q d →
        (printICMPResponse proto data peer seq ttl ms s).1.received = s.received + 1
        ∧ (printICMPResponse proto data peer seq ttl ms s).1.errors = s.errors
        ∧ (printICMPResponse proto data peer seq ttl ms s).1
            = ({ s with received := s.received + 1 }).iterativeStats ms
        ∧ (printICMPResponse proto data peer seq ttl ms s).2
            = [.success data.length peer q ttl ms])
    ∧ ((msg.typ = .v4 3 ∨ msg.typ = .v6 1) →
        (printICMPResponse proto data peer seq ttl ms s).1.received = s.received
        ∧ (printICMPResponse proto data peer seq ttl ms s).1.errors = s.errors + 1
        ∧ (printICMPResponse proto data peer seq ttl ms s).2 = [.unreachable peer seq])
    ∧ ((msg.typ = .v4 11 ∨ msg.typ = .v6 3) →
        (printICMPResponse proto data peer seq ttl ms s).1.received = s.received
        ∧ (printICMPResponse proto data peer seq ttl ms s).1.errors = s.errors + 1
        ∧ (printICMPResponse proto data peer seq ttl ms s).2
            = [.timeExceeded peer seq (proto ≠ 1)])
    ∧ ((msg.typ = .v6 136 ∨ msg.typ = .v6 135 ∨ msg.typ = .v6 134 ∨ msg.typ = .v6 133) →
        (printICMPResponse proto data peer seq ttl ms s).1 = s
        ∧ (printICMPResponse proto data peer seq ttl ms s).2 = [.infoV6 peer seq msg.typ])
    ∧ (¬(msg.typ = .v4 0 ∨ msg.typ = .v6 129) →
       ¬(msg.typ = .v4 3 ∨ msg.typ = .v6 1) →
       ¬(msg.typ = .v4 11 ∨ msg.typ = .v6 3) →
       ¬(msg.typ = .v6 136 ∨ msg.typ = .v6 135 ∨ msg.typ = .v6 134 ∨ msg.typ = .v6 133) →
        (printICMPResponse proto data peer seq ttl ms s).1.received = s.received
        ∧ (printICMPResponse proto data peer seq ttl ms s).1.errors = s.errors + 1
        ∧ (printICMPResponse proto data peer seq ttl ms s).2 = [.unknownType peer seq msg.typ])
    ∧ (((printICMPResponse proto data peer seq ttl ms s).1.received = s.received + 1
          ∧ (printICMPResponse proto data peer seq ttl ms s).1.errors = s.errors)
        ∨ ((printICMPResponse proto data peer seq ttl ms s).1.received = s.received
          ∧ (printICMPResponse proto data peer seq ttl ms s).1.errors = s.errors + 1)
        ∨ ((printICMPResponse proto data peer seq ttl ms s).1.received = s.received
          ∧ (printICMPResponse proto data peer seq ttl ms s).1.errors = s.errors)) := by
  refine ⟨?_, ?_, ?_, ?_, ?_, ?_⟩
  · intro htyp i q d hbody
    simp [printICMPResponse, h, if_pos htyp, hbody,
      (iterativeStats_counters _ ms).2.1, (iterativeStats_counters _ ms).2.2]
  · intro htyp
    have h1 : ¬(msg.typ = .v4 0 ∨ msg.typ = .v6 129) := by
      rcases htyp with h' | h' <;> simp [h']
    simp [printICMPResponse, h, if_neg h1, if_pos htyp]
  · intro htyp
    have h1 : ¬(msg.typ = .v4 0 ∨ msg.typ = .v6 129) := by
      rcases htyp with h' | h' <;> simp [h']
    have h2 : ¬(msg.typ = .v4 3 ∨ msg.typ = .v6 1) := by
      rcases htyp with h' | h' <;> simp [h']
    simp [printICMPResponse, h, if_neg h1, if_neg h2, if_pos htyp]
  · intro htyp
    have h1 : ¬(msg.typ = .v4 0 ∨ msg.typ = .v6 129) := by
      rcases htyp with h' | h' | h' | h' <;> simp [h']
    have h2 : ¬(msg.typ = .v4 3 ∨ msg.typ = .v6 1) := by
      rcases htyp with h' | h' | h' | h' <;> simp [h']
    have h3 : ¬(msg.typ = .v4 11 ∨ msg.typ = .v6 3) := by
      rcases htyp with h' | h' | h' | h' <;> simp [h']
    simp [printICMPResponse, h, if_neg h1, if_neg h2, if_neg h3, if_pos htyp]
  · intro h1 h2 h3 h4
    simp [printICMPResponse, h, if_neg h1, if_neg h2, if_neg h3, if_neg h4]
  · have hstep := printICMPResponse_step proto data peer seq ttl ms s
    exact hstep.2.1

/-- C7 witness: a concrete ICMPv4 echo reply for sequence 7 increments
`received` and leaves `errors` alone. -/
theorem pinger_C7_witness :
    (printICMPResponse 1 [0, 0, 0, 0, 0, 1, 0, 7] "peer" 7 64 10 pingStats4Init).1.received
        = pingStats4Init.received + 1
    ∧ (printICMPResponse 1 [0, 0, 0, 0, 0, 1, 0, 7] "peer" 7 64 10 pingStats4Init).1.errors
        = pingStats4Init.errors := by
  have h := pinger_C7 1 [0, 0, 0, 0, 0, 1, 0, 7] "peer" 7 64 10 pingStats4Init
    { typ := .v4 0, code := 0, checksum := 0, body := .echo 1 7 [] } rfl
  have h2 := h.1 (Or.inl rfl) 1 7 [] rfl
  exact ⟨h2.1, h2.2.1⟩

/-- C8: encode/decode round-trip.  For any process id and any sequence
number in 16-bit range (the loop's sequence numbers are 0..CNT-1 with
CNT read from an `int8` flag, so far below 2^16), marshalling the echo
request and parsing the bytes back with the matching protocol recovers the
identifier `pid % 2^16` and the sequence number, for both families. -/
theorem pinger_C8 (pid seq : ℕ) (h : seq < 65536) :
    (parseMessage 1 (constructMarshalledMessage (.v4 8) seq pid)).map ICMPMessage.body
      = some (.echo (pid % 65536) seq pingPayload)
    ∧ (parseMessage 58 (constructMarshalledMessage (.v6 128) seq pid)).map ICMPMessage.body
      = some (.echo (pid % 65536) seq pingPayload) := by
  constructor <;>
    simp only [constructMarshalledMessage, ICMPTypeM.byteVal, ICMPTypeM.protocol,
      marshalMessage, echoMarshal, List.cons_append, List.nil_append,
      parseMessage, parse4Body, parse6Body, parseEcho] <;>
    norm_num <;>
    constructor <;>
    omega

/-- C8 witness: at pid 12345 and sequence 7. -/
theorem pinger_C8_witness :
    (7 : ℕ) < 65536
    ∧ (parseMessage 1 (constructMarshalledMessage (.v4 8) 7 12345)).map ICMPMessage.body
        = some (.echo (12345 % 65536) 7 pingPayload) :=
  ⟨by norm_num, (pinger_C8 12345 7 (by norm_num)).1⟩

/-- C9: exactly one per-probe line per attempted sequence number — each
iteration prints exactly one line whatever its outcome, and a run of `k`
iterations prints exactly `k` per-probe lines. -/
theorem pinger_C9 (proto : ℕ) (env : ℕ → IterEnv) (init : PingStats) (k : ℕ) :
    (runProbes proto env init k).2.length = k
    ∧ (ICMP4Handler k env).probeLines.length = k
    ∧ (ICMP6Handler k env).probeLines.length = k
    ∧ ∀ (i : ℕ) (e : IterEnv) (s : PingStats),
        (probeIteration proto i e s).2.length = 1 := by
  refine ⟨(runProbes_step proto env init k).2.2,
    (runProbes_step 1 env pingStats4Init k).2.2,
    (runProbes_step 58 env pingStats6Init k).2.2,
    fun i e s => (probeIteration_step proto i e s).2.2⟩

/-- C10: `valIPv6` answers true for every dotted-decimal IPv4 literal
(`net.ParseIP` succeeds and `To16` is non-nil on its 16-byte result), so
`AddrResolution` with `{V4 := false, V6 := true}` accepts the IPv4 literal
`8.8.8.8` as IPv6 and the root command then starts the IPv6 handler for an
IPv4 destination. -/
theorem pinger_C10 :
    (∀ (s : String) (f : List ℕ), parseIPv4 s.data = some f → valIPv6 s = (true, none))
    ∧ AddrResolution noLookup "8.8.8.8" ⟨false, true⟩ = .ok ⟨"8.8.8.8", true⟩
    ∧ rootCmdSelect noLookup "8.8.8.8" ⟨false, true⟩ = .ok .v6 := by
  refine ⟨?_, rfl, rfl⟩
  intro s f hpf
  have hloop : parseV4Loop s.data 0 0 [] = some f := hpf
  have hall := parseV4Loop_chars _ _ _ _ _ hloop
  have hdot := parseV4Loop_hasDot _ _ _ _ _ hloop (by simp)
  have hfind := find_special_of_digits _ hall hdot
  have hlen := parseV4Loop_len _ _ _ _ _ hloop
  have h16 : (v4in6 f).length = 16 := by simp [v4in6, hlen]
  simp only [valIPv6, parseIP, hfind, hpf, Option.map_some]
  simp [to16exists, h16]

/-- C10 witness: the literal `8.8.8.8`. -/
theorem pinger_C10_witness :
    parseIPv4 "8.8.8.8".data = some [8, 8, 8, 8]
    ∧ valIPv6 "8.8.8.8" = (true, none) :=
  ⟨rfl, pinger_C10.1 "8.8.8.8" [8, 8, 8, 8] rfl⟩
